import Mathlib

/-!
Shallow embedding of the canvas interaction engine of `src/App.tsx`
(whiteboard editor).  Coordinates are rational numbers (exact arithmetic
standing in for IEEE doubles).  Each definition mirrors one function or
branch of the source; theorems below settle the specification claims.
-/

namespace Whiteboard

/-- `types.ts` `Point` (world units).  Pen anchors in `App.tsx` additionally
carry optional bezier control-handle offsets `lcx/lcy` (incoming) and
`rcx/rcy` (outgoing), each relative to the anchor. -/
structure PenPoint where
  x : ℚ
  y : ℚ
  lcx : Option ℚ := none
  lcy : Option ℚ := none
  rcx : Option ℚ := none
  rcy : Option ℚ := none
  deriving Repr, DecidableEq

/-- A plain 2-d point (screen or world position). -/
@[ext]
structure Pt where
  x : ℚ
  y : ℚ
  deriving Repr, DecidableEq

/-- Node kind tags.  `types.ts` lists the union; `App.tsx` also creates
`'path'` nodes (pen tool), so `path` is included. -/
inductive NodeType where
  | sticky | text | rectangle | circle | triangle | star | diamond
  | hexagon | pentagon | arrow | line | draw | path | image
  deriving Repr, DecidableEq

/-- Tool tags.  `types.ts` lists the union; `App.tsx` also switches on the
`'pen'` tool, so `pen` is included. -/
inductive Tool where
  | select | hand | sticky | text | rectangle | circle | triangle | star
  | diamond | hexagon | pentagon | pencil | arrow | line | image | pen
  deriving Repr, DecidableEq

/-- `types.ts` `CanvasNode`.  Optional TS fields become `Option`;
`aspectRatioLocked?: boolean` is modelled as `Bool` (JS `undefined` and
`false` are equally falsy in every use site). -/
structure CanvasNode where
  id : String
  type : NodeType
  x : ℚ
  y : ℚ
  width : ℚ
  height : ℚ
  content : String := ""
  color : String := ""
  fontFamily : Option String := none
  fontSize : Option ℚ := none
  fillColor : Option String := none
  strokeColor : Option String := none
  strokeWidth : Option ℚ := none
  aspectRatioLocked : Bool := false
  points : Option (List PenPoint) := none
  src : Option String := none
  deriving Repr, DecidableEq

/-- `types.ts` `ViewState`. -/
structure ViewState where
  scale : ℚ
  offsetX : ℚ
  offsetY : ℚ
  deriving Repr, DecidableEq

/-- `App.tsx` `screenToWorld`:
`((screenX - offsetX) / scale, (screenY - offsetY) / scale)`. -/
def screenToWorld (v : ViewState) (screenX screenY : ℚ) : Pt :=
  ⟨(screenX - v.offsetX) / v.scale, (screenY - v.offsetY) / v.scale⟩

/-- `App.tsx` `worldToScreen`:
`(worldX * scale + offsetX, worldY * scale + offsetY)`. -/
def worldToScreen (v : ViewState) (worldX worldY : ℚ) : Pt :=
  ⟨worldX * v.scale + v.offsetX, worldY * v.scale + v.offsetY⟩

/-- `App.tsx` `onWheel`, zoom branch (ctrl/meta held).  `MIN_SCALE` and
`MAX_SCALE` come from `constants.ts` (not in the sources); they are
parameters here. -/
def wheelZoom (minScale maxScale : ℚ) (v : ViewState)
    (clientX clientY deltaY : ℚ) : ViewState :=
  let zoomSensitivity : ℚ := 1 / 1000
  let delta := -deltaY * zoomSensitivity
  let newScale := min (max (v.scale * (1 + delta)) minScale) maxScale
  let cursorWorld := screenToWorld v clientX clientY
  ⟨newScale, clientX - cursorWorld.x * newScale,
    clientY - cursorWorld.y * newScale⟩

/-- The selection rectangle maintained during a box-selection drag
(`selectionBox` state in `App.tsx`). -/
structure Rect where
  x : ℚ
  y : ℚ
  width : ℚ
  height : ℚ
  deriving Repr, DecidableEq

/-- `App.tsx` `handlePointerUp`, node/box overlap test (open intervals):
`node.x < box.x + box.width && node.x + node.width > box.x &&
 node.y < box.y + box.height && node.y + node.height > box.y`. -/
def nodeOverlapsBox (box : Rect) (node : CanvasNode) : Bool :=
  decide (node.x < box.x + box.width) &&
  decide (node.x + node.width > box.x) &&
  decide (node.y < box.y + box.height) &&
  decide (node.y + node.height > box.y)

/-- JS `Array.from(new Set(l))`: keeps the first occurrence of each
element, in order. -/
def jsSetDedup (l : List String) : List String :=
  l.foldl (fun acc x => if x ∈ acc then acc else acc ++ [x]) []

/-- `App.tsx` `handlePointerUp`, box-selection finalization branch: the new
`selectedNodeIds` from the node list, the selection box, the shift modifier
and the previous selection. -/
def boxSelectionRelease (nodes : List CanvasNode) (selectionBox : Rect)
    (shiftKey : Bool) (prev : List String) : List String :=
  let selected :=
    (nodes.filter fun node => nodeOverlapsBox selectionBox node).map (·.id)
  if shiftKey then jsSetDedup (prev ++ selected) else selected

/-- `App.tsx` `ResizeState.startDims`. -/
structure StartDims where
  width : ℚ
  height : ℚ
  x : ℚ
  y : ℚ
  fontSize : ℚ
  deriving Repr, DecidableEq

/-- `App.tsx` `ResizeState` (minus the constant `isResizing` flag). -/
structure ResizeState where
  nodeId : String
  handle : String
  startPoint : Pt
  startDims : StartDims
  deriving Repr, DecidableEq

/-- JS `v || d` on an optional number (`0` is falsy and also yields `d`). -/
def jsOrNum (v : Option ℚ) (d : ℚ) : ℚ :=
  match v with
  | none => d
  | some x => if x = 0 then d else x

/-- `App.tsx` `handleResizeStart`, for the node found by id:
captures start geometry and `node.fontSize || 16`. -/
def handleResizeStart (handle : String) (startPoint : Pt)
    (node : CanvasNode) : ResizeState :=
  ⟨node.id, handle, startPoint,
    ⟨node.width, node.height, node.x, node.y, jsOrNum node.fontSize 16⟩⟩

/-- Working dimensions inside the resize branch of `handlePointerMove`. -/
structure Dims where
  w : ℚ
  h : ℚ
  x : ℚ
  y : ℚ
  deriving Repr, DecidableEq

/-- JS `String.prototype.includes` with a single-character needle
(`handle.includes('e')`): membership in the string's character list
(behaviourally equal to `String.contains`). -/
def strContains (s : String) (c : Char) : Bool := s.data.contains c

/-- Resize branch, step 1 ("Determine dimensions based on handle"):
`e`/`w` move the width (and `w` the origin), `s`/`n` the height. -/
def rawDims (startDims : StartDims) (handle : String) (dx dy : ℚ) : Dims :=
  let w1 := if strContains handle 'e' then startDims.width + dx else startDims.width
  let w2 := if strContains handle 'w' then startDims.width - dx else w1
  let x2 := if strContains handle 'w' then startDims.x + dx else startDims.x
  let h1 := if strContains handle 's' then startDims.height + dy else startDims.height
  let h2 := if strContains handle 'n' then startDims.height - dy else h1
  let y2 := if strContains handle 'n' then startDims.y + dy else startDims.y
  ⟨w2, h2, x2, y2⟩

/-- Resize branch, step 2 ("Apply Aspect Ratio Lock for Shapes/Images"):
width-driven when the handle has `e` or `w`, else height-driven, with
origin compensation for `n` (resp. `w`). -/
def lockDims (startDims : StartDims) (handle : String) (locked : Bool)
    (d : Dims) : Dims :=
  if locked then
    let ratio := startDims.width / startDims.height
    if strContains handle 'e' || strContains handle 'w' then
      let h := d.w / ratio
      ⟨d.w, h, d.x,
        if strContains handle 'n' then startDims.y + (startDims.height - h) else d.y⟩
    else
      let w := d.h * ratio
      ⟨w, d.h,
        if strContains handle 'w' then startDims.x + (startDims.width - w) else d.x,
        d.y⟩
  else d

/-- Resize branch, step 3 ("Special logic for Text Scaling"): returns the
adjusted dims and the new font size (fed from `startDims.fontSize`). -/
def textDims (startDims : StartDims) (handle : String) (isText : Bool)
    (d : Dims) : Dims × ℚ :=
  if isText then
    if handle.length == 2 then
      let ratio := d.w / startDims.width
      (⟨d.w, startDims.height * ratio, d.x, d.y⟩,
        max 8 (startDims.fontSize * ratio))
    else (d, startDims.fontSize)
  else (d, startDims.fontSize)

/-- Resize branch of `App.tsx` `handlePointerMove`, applied to the matched
node: compose the three steps, floor width/height at 10, round the font
size (`Math.round x = ⌊x + 1/2⌋`). -/
def resizeOne (startDims : StartDims) (handle : String) (dx dy : ℚ)
    (node : CanvasNode) : CanvasNode :=
  let locked := node.aspectRatioLocked || node.type == NodeType.image
  let d1 := rawDims startDims handle dx dy
  let d2 := lockDims startDims handle locked d1
  let td := textDims startDims handle (node.type == NodeType.text) d2
  { node with
    x := td.1.x, y := td.1.y,
    width := max 10 td.1.w, height := max 10 td.1.h,
    fontSize := some ((round td.2 : ℤ) : ℚ) }

/-- Resize branch of `handlePointerMove` over the whole node list:
`dx, dy` from the captured start point, untouched nodes returned as-is. -/
def applyResize (rs : ResizeState) (worldPos : Pt)
    (nodes : List CanvasNode) : List CanvasNode :=
  let dx := worldPos.x - rs.startPoint.x
  let dy := worldPos.y - rs.startPoint.y
  nodes.map fun node =>
    if node.id ≠ rs.nodeId then node
    else resizeOne rs.startDims rs.handle dx dy node

/-- Drawing branch of `handlePointerMove` (case `isDrawing` with one
selected node), applied to the active node. -/
def drawingMoveNode (worldPos drawingStart : Pt) (node : CanvasNode) :
    CanvasNode :=
  if node.type == NodeType.draw then
    let newPoint : PenPoint :=
      ⟨worldPos.x - node.x, worldPos.y - node.y, none, none, none, none⟩
    { node with
      width := max node.width newPoint.x,
      height := max node.height newPoint.y,
      points := some (node.points.getD [] ++ [newPoint]) }
  else if node.type == NodeType.line || node.type == NodeType.arrow then
    { node with
      points := some [⟨0, 0, none, none, none, none⟩,
        ⟨worldPos.x - node.x, worldPos.y - node.y, none, none, none, none⟩] }
  else
    let dx := worldPos.x - drawingStart.x
    let dy := worldPos.y - drawingStart.y
    { node with
      x := if dx < 0 then worldPos.x else drawingStart.x,
      y := if dy < 0 then worldPos.y else drawingStart.y,
      width := |dx|, height := |dy| }

/-- Drawing branch of `handlePointerMove` over the whole node list. -/
def drawingMove (worldPos drawingStart : Pt) (activeId : String)
    (nodes : List CanvasNode) : List CanvasNode :=
  nodes.map fun node =>
    if node.id ≠ activeId then node
    else drawingMoveNode worldPos drawingStart node

/-- The TS cast `activeTool as NodeType` for the shape tools (the branch is
only reached with one of the seven shape tools; the remaining cases are
unreachable there and map to `rectangle`). -/
def toolNodeType : Tool → NodeType
  | Tool.rectangle => NodeType.rectangle
  | Tool.circle => NodeType.circle
  | Tool.triangle => NodeType.triangle
  | Tool.star => NodeType.star
  | Tool.diamond => NodeType.diamond
  | Tool.hexagon => NodeType.hexagon
  | Tool.pentagon => NodeType.pentagon
  | Tool.sticky => NodeType.sticky
  | Tool.text => NodeType.text
  | Tool.arrow => NodeType.arrow
  | Tool.line => NodeType.line
  | Tool.image => NodeType.image
  | _ => NodeType.rectangle

/-- Node-creation branch of `App.tsx` `handlePointerDown` (step 4): the
node created for each creation tool at `worldPos`, `none` for tools that
create nothing. -/
def pointerDownCreate (id : String) (tool : Tool) (worldPos : Pt) :
    Option CanvasNode :=
  if tool == Tool.text then
    some {
      id, type := NodeType.text, x := worldPos.x, y := worldPos.y - 30,
      width := 200, height := 60, content := "", color := "transparent",
      fillColor := some "#000000", fontSize := some 24,
      fontFamily := some "Inter, sans-serif" }
  else if tool == Tool.pencil then
    some {
      id, type := NodeType.draw, x := worldPos.x, y := worldPos.y,
      width := 0, height := 0, content := "", color := "#1e293b",
      points := some [⟨0, 0, none, none, none, none⟩] }
  else if tool == Tool.line || tool == Tool.arrow then
    some {
      id, type := toolNodeType tool, x := worldPos.x, y := worldPos.y,
      width := 0, height := 0, content := "", color := "#64748b",
      points := some [⟨0, 0, none, none, none, none⟩,
        ⟨0, 0, none, none, none, none⟩] }
  else if tool == Tool.rectangle || tool == Tool.circle
      || tool == Tool.triangle || tool == Tool.star || tool == Tool.diamond
      || tool == Tool.hexagon || tool == Tool.pentagon then
    some {
      id, type := toolNodeType tool, x := worldPos.x, y := worldPos.y,
      width := 0, height := 0, content := "", color := "#ffffff",
      fillColor := some "#dbeafe", strokeColor := some "#94a3b8",
      strokeWidth := some 1, aspectRatioLocked := false }
  else none

/-- `setNodes(prev => [...prev, newNode])` after creation: appends the new
node when one is created. -/
def pointerDownCreateNodes (id : String) (tool : Tool) (worldPos : Pt)
    (nodes : List CanvasNode) : List CanvasNode :=
  match pointerDownCreate id tool worldPos with
  | none => nodes
  | some n => nodes ++ [n]

/-- JS `Math.min(...)` over a spread list.  The empty case (JS `Infinity`)
is unreachable at the use site (`finishPenPath` guards `length ≥ 2`). -/
def listMin : List ℚ → ℚ
  | [] => 0
  | [a] => a
  | a :: b :: rest => min a (listMin (b :: rest))

/-- JS `Math.max(...)` over a spread list; empty case as in `listMin`. -/
def listMax : List ℚ → ℚ
  | [] => 0
  | [a] => a
  | a :: b :: rest => max a (listMax (b :: rest))

/-- JS `c ? c / d : undefined` on an optional handle offset (note `0` is
falsy, so a zero offset becomes `undefined`, not `0`). -/
def jsTruthyDiv (c : Option ℚ) (d : ℚ) : Option ℚ :=
  match c with
  | none => none
  | some v => if v = 0 then none else some (v / d)

/-- The pieces of `App` state that `finishPenPath` reads and writes. -/
structure PenFinishResult where
  nodes : List CanvasNode
  selectedNodeIds : List String
  penPoints : List PenPoint
  activePenPointIndex : Option Nat
  deriving Repr, DecidableEq

/-- `App.tsx` `finishPenPath`: with fewer than 2 anchors only the buffer is
cleared; otherwise the bounding box of the raw anchors (floored at 1) gives
a new `path` node whose points are box-relative fractions, appended and
made the sole selection. -/
def finishPenPath (id : String) (penPoints : List PenPoint)
    (nodes : List CanvasNode) (selectedNodeIds : List String)
    (activePenPointIndex : Option Nat) : PenFinishResult :=
  if penPoints.length < 2 then
    ⟨nodes, selectedNodeIds, [], activePenPointIndex⟩
  else
    let xs := penPoints.map (·.x)
    let ys := penPoints.map (·.y)
    let minX := listMin xs
    let maxX := listMax xs
    let minY := listMin ys
    let maxY := listMax ys
    let width := max 1 (maxX - minX)
    let height := max 1 (maxY - minY)
    let newNode : CanvasNode :=
      {
        id, type := NodeType.path, x := minX, y := minY,
        width := width, height := height, content := "", color := "#ffffff",
        fillColor := some "#dbeafe", strokeColor := some "#3b82f6",
        strokeWidth := some 2,
        points := some (penPoints.map fun p =>
          ⟨(p.x - minX) / width, (p.y - minY) / height,
            jsTruthyDiv p.lcx width, jsTruthyDiv p.lcy height,
            jsTruthyDiv p.rcx width, jsTruthyDiv p.rcy height⟩) }
    ⟨nodes ++ [newNode], [id], [], none⟩

/-- `App.tsx` `handleKeyDown`, Enter branch: finalizes only when the pen
tool is active and more than one anchor exists. -/
def handleEnterKey (id : String) (activeTool : Tool)
    (penPoints : List PenPoint) (nodes : List CanvasNode)
    (selectedNodeIds : List String) (activePenPointIndex : Option Nat) :
    PenFinishResult :=
  if activeTool == Tool.pen && penPoints.length > 1 then
    finishPenPath id penPoints nodes selectedNodeIds activePenPointIndex
  else ⟨nodes, selectedNodeIds, penPoints, activePenPointIndex⟩

/-- Width of the bounding box of a point list (for comparing the drawing
branch's running max against a true bounding box). -/
def bboxWidth (pts : List PenPoint) : ℚ :=
  listMax (pts.map (·.x)) - listMin (pts.map (·.x))

/-- Height of the bounding box of a point list. -/
def bboxHeight (pts : List PenPoint) : ℚ :=
  listMax (pts.map (·.y)) - listMin (pts.map (·.y))

/-- Iterated drawing moves on a single node (a sequence of
`handlePointerMove` events targeting it). -/
def drawMoves (drawingStart : Pt) (node : CanvasNode) (ws : List Pt) :
    CanvasNode :=
  ws.foldl (fun n w => drawingMoveNode w drawingStart n) node

/-- C1: Zoom-at-cursor: with `0 < MIN_SCALE ≤ MAX_SCALE` and the current
scale inside `[MIN_SCALE, MAX_SCALE]`, a wheel-zoom at screen position
`(cx, cy)` clamps the new scale to `[MIN_SCALE, MAX_SCALE]`, re-derives the
offset as `cursorScreen - worldUnderCursor * newScale`, and leaves
`screenToWorld(cx, cy)` unchanged. -/
theorem wheelZoom_anchor_invariant (minScale maxScale : ℚ) (v : ViewState)
    (cx cy deltaY : ℚ) (hmin : 0 < minScale) (hmm : minScale ≤ maxScale)
    (hlo : minScale ≤ v.scale) (hhi : v.scale ≤ maxScale) :
    let v' := wheelZoom minScale maxScale v cx cy deltaY
    minScale ≤ v'.scale ∧ v'.scale ≤ maxScale ∧
    v'.offsetX = cx - (screenToWorld v cx cy).x * v'.scale ∧
    v'.offsetY = cy - (screenToWorld v cx cy).y * v'.scale ∧
    screenToWorld v' cx cy = screenToWorld v cx cy := by
  intro v'
  have hlo' : minScale ≤ v'.scale := le_min (le_max_right _ _) hmm
  have hhi' : v'.scale ≤ maxScale := min_le_right _ _
  have hne : v'.scale ≠ 0 := ne_of_gt (lt_of_lt_of_le hmin hlo')
  refine ⟨hlo', hhi', rfl, rfl, ?_⟩
  show screenToWorld v' cx cy = screenToWorld v cx cy
  have hx : (cx - (cx - (screenToWorld v cx cy).x * v'.scale)) / v'.scale
      = (screenToWorld v cx cy).x := by
    field_simp
  have hy : (cy - (cy - (screenToWorld v cx cy).y * v'.scale)) / v'.scale
      = (screenToWorld v cx cy).y := by
    field_simp
  exact Pt.ext hx hy

/-- Witness for C1 at concrete inputs. -/
theorem wheelZoom_anchor_invariant_witness :
    (0 : ℚ) < 1/10 ∧ (1/10 : ℚ) ≤ 4 ∧ (1/10 : ℚ) ≤ 1 ∧ (1 : ℚ) ≤ 4 ∧
    (let v' := wheelZoom (1/10) 4 ⟨1, 30, 40⟩ 100 200 (-500)
     (1/10 : ℚ) ≤ v'.scale ∧ v'.scale ≤ 4 ∧
     v'.offsetX = 100 - (screenToWorld ⟨1, 30, 40⟩ 100 200).x * v'.scale ∧
     v'.offsetY = 200 - (screenToWorld ⟨1, 30, 40⟩ 100 200).y * v'.scale ∧
     screenToWorld v' 100 200 = screenToWorld ⟨1, 30, 40⟩ 100 200) :=
  ⟨by norm_num, by norm_num, by norm_num, by norm_num,
    wheelZoom_anchor_invariant (1/10) 4 ⟨1, 30, 40⟩ 100 200 (-500)
      (by norm_num) (by norm_num) (by norm_num) (by norm_num)⟩

/-- C2: Coordinate round-trip: for any view state with non-zero scale,
`worldToScreen ∘ screenToWorld` and `screenToWorld ∘ worldToScreen` are both
the identity (exactly, in rational arithmetic). -/
theorem transform_round_trip (v : ViewState) (hs : v.scale ≠ 0)
    (sx sy wx wy : ℚ) :
    worldToScreen v (screenToWorld v sx sy).x (screenToWorld v sx sy).y
      = ⟨sx, sy⟩ ∧
    screenToWorld v (worldToScreen v wx wy).x (worldToScreen v wx wy).y
      = ⟨wx, wy⟩ := by
  constructor
  · show Pt.mk ((sx - v.offsetX) / v.scale * v.scale + v.offsetX)
        ((sy - v.offsetY) / v.scale * v.scale + v.offsetY) = ⟨sx, sy⟩
    have hx : (sx - v.offsetX) / v.scale * v.scale + v.offsetX = sx := by
      field_simp
    have hy : (sy - v.offsetY) / v.scale * v.scale + v.offsetY = sy := by
      field_simp
    rw [hx, hy]
  · show Pt.mk ((wx * v.scale + v.offsetX - v.offsetX) / v.scale)
        ((wy * v.scale + v.offsetY - v.offsetY) / v.scale) = ⟨wx, wy⟩
    have hx : (wx * v.scale + v.offsetX - v.offsetX) / v.scale = wx := by
      field_simp
    have hy : (wy * v.scale + v.offsetY - v.offsetY) / v.scale = wy := by
      field_simp
    rw [hx, hy]

/-- Witness for C2 at concrete inputs. -/
theorem transform_round_trip_witness :
    ((⟨2, 5, 7⟩ : ViewState).scale ≠ 0) ∧
    (worldToScreen ⟨2, 5, 7⟩ (screenToWorld ⟨2, 5, 7⟩ 11 13).x
        (screenToWorld ⟨2, 5, 7⟩ 11 13).y = ⟨11, 13⟩ ∧
     screenToWorld ⟨2, 5, 7⟩ (worldToScreen ⟨2, 5, 7⟩ 3 4).x
        (worldToScreen ⟨2, 5, 7⟩ 3 4).y = ⟨3, 4⟩) :=
  ⟨by norm_num, transform_round_trip ⟨2, 5, 7⟩ (by norm_num) 11 13 3 4⟩

/-! ### Helper lemmas (shared) -/

/-- Membership in the JS-`Set` fold: an element is in the result iff it is
in the accumulator or in the remaining list. -/
theorem mem_foldl_dedup (l acc : List String) (y : String) :
    (y ∈ List.foldl (fun acc x => if x ∈ acc then acc else acc ++ [x]) acc l)
      ↔ y ∈ acc ∨ y ∈ l := by
  induction l generalizing acc with
  | nil => simp
  | cons a t ih =>
    by_cases h : a ∈ acc
    · simp only [List.foldl_cons, if_pos h, ih, List.mem_cons]
      constructor
      · rintro (hy | hy)
        · exact Or.inl hy
        · exact Or.inr (Or.inr hy)
      · rintro (hy | rfl | hy)
        · exact Or.inl hy
        · exact Or.inl h
        · exact Or.inr hy
    · simp only [List.foldl_cons, if_neg h, ih, List.mem_append,
        List.mem_cons, List.mem_singleton]
      tauto

/-- The JS-`Set` fold produces no duplicates. -/
theorem nodup_foldl_dedup (l : List String) (acc : List String)
    (hacc : acc.Nodup) :
    (List.foldl (fun acc x => if x ∈ acc then acc else acc ++ [x]) acc l).Nodup := by
  induction l generalizing acc with
  | nil => simpa
  | cons a t ih =>
    by_cases h : a ∈ acc
    · simp only [List.foldl_cons, if_pos h]
      exact ih _ hacc
    · simp only [List.foldl_cons, if_neg h]
      refine ih _ (List.nodup_append.mpr ⟨hacc, List.nodup_singleton a, ?_⟩)
      intro x hx hxa
      exact h ((List.mem_singleton.mp hxa) ▸ hx)

/-! ### Claim theorems -/

/-- C3: Box-selection finalization: an id is selected iff (with shift) it
was previously selected or (always) some node with that id passes the
open-interval overlap test; with shift the result has no duplicates.  In
particular a node with zero overlap is never selected by the box. -/
theorem boxSelection_finalize_correct (nodes : List CanvasNode) (box : Rect)
    (shiftKey : Bool) (prev : List String) (i : String) :
    (i ∈ boxSelectionRelease nodes box shiftKey prev ↔
      ((shiftKey = true ∧ i ∈ prev) ∨
        ∃ n ∈ nodes, n.id = i ∧ nodeOverlapsBox box n = true)) ∧
    (shiftKey = true → (boxSelectionRelease nodes box shiftKey prev).Nodup) := by
  unfold boxSelectionRelease jsSetDedup
  cases shiftKey with
  | false =>
    refine ⟨?_, by simp⟩
    simp only [if_neg (Bool.false_ne_true), List.mem_map, List.mem_filter]
    constructor
    · rintro ⟨n, ⟨hn, hov⟩, rfl⟩
      exact Or.inr ⟨n, hn, rfl, hov⟩
    · rintro (⟨h, _⟩ | ⟨n, hn, rfl, hov⟩)
      · exact absurd h (by simp)
      · exact ⟨n, ⟨hn, hov⟩, rfl⟩
  | true =>
    refine ⟨?_, fun _ => nodup_foldl_dedup _ _ List.nodup_nil⟩
    rw [if_pos rfl, mem_foldl_dedup]
    simp only [List.mem_nil_iff, false_or, List.mem_append, List.mem_map,
      List.mem_filter, true_and]
    constructor
    · rintro (hp | ⟨n, ⟨hn, hov⟩, rfl⟩)
      · exact Or.inl hp
      · exact Or.inr ⟨n, hn, rfl, hov⟩
    · rintro (hp | ⟨n, hn, rfl, hov⟩)
      · exact Or.inl hp
      · exact Or.inr ⟨n, ⟨hn, hov⟩, rfl⟩

/-- Witness for C3: a box covering only node `a`, shift held, unions with
the prior selection and stays duplicate-free. -/
theorem boxSelection_finalize_correct_witness :
    boxSelectionRelease
      [{ id := "a", type := NodeType.rectangle, x := 0, y := 0,
          width := 10, height := 10 },
        { id := "b", type := NodeType.rectangle, x := 100, y := 100,
          width := 10, height := 10 }]
      ⟨0, 0, 20, 20⟩ true ["z"] = ["z", "a"] ∧
    (boxSelectionRelease
      [{ id := "a", type := NodeType.rectangle, x := 0, y := 0,
          width := 10, height := 10 },
        { id := "b", type := NodeType.rectangle, x := 100, y := 100,
          width := 10, height := 10 }]
      ⟨0, 0, 20, 20⟩ true ["z"]).Nodup :=
  ⟨by norm_num [boxSelectionRelease, nodeOverlapsBox, jsSetDedup]; decide,
    (boxSelection_finalize_correct
      [{ id := "a", type := NodeType.rectangle, x := 0, y := 0,
          width := 10, height := 10 },
        { id := "b", type := NodeType.rectangle, x := 100, y := 100,
          width := 10, height := 10 }]
      ⟨0, 0, 20, 20⟩ true ["z"] "a").2 rfl⟩

/-- C4: Resize minimum floor: whatever the handle, start geometry, node and
pointer delta, the resized node has width ≥ 10 and height ≥ 10. -/
theorem resize_min_floor (startDims : StartDims) (handle : String)
    (dx dy : ℚ) (node : CanvasNode) :
    10 ≤ (resizeOne startDims handle dx dy node).width ∧
    10 ≤ (resizeOne startDims handle dx dy node).height := by
  unfold resizeOne
  exact ⟨le_max_left _ _, le_max_left _ _⟩

/-- The text-scaling step never changes the width. -/
theorem textDims_fst_w (sd : StartDims) (handle : String) (b : Bool)
    (d : Dims) : (textDims sd handle b d).1.w = d.w := by
  unfold textDims
  split
  · split
    · rfl
    · rfl
  · rfl

/-- Text-scaling step on a text node with a 2-letter handle: the height is
rescaled by the width ratio. -/
theorem textDims_fst_h_true (sd : StartDims) (handle : String) (d : Dims)
    (hlen : (handle.length == 2) = true) :
    (textDims sd handle true d).1.h = sd.height * (d.w / sd.width) := by
  simp [textDims, hlen]

/-- Text-scaling step on a non-text node: the height passes through. -/
theorem textDims_fst_h_false (sd : StartDims) (handle : String) (d : Dims) :
    (textDims sd handle false d).1.h = d.h := by
  simp [textDims]

/-- Aspect-lock step, width-driven case: the width passes through. -/
theorem lockDims_w_ew (sd : StartDims) (handle : String) (d : Dims)
    (hew : (strContains handle 'e' || strContains handle 'w') = true) :
    (lockDims sd handle true d).w = d.w := by
  simp [lockDims, hew]

/-- Aspect-lock step, width-driven case: the height is re-derived from the
width by the start ratio. -/
theorem lockDims_h_ew (sd : StartDims) (handle : String) (d : Dims)
    (hew : (strContains handle 'e' || strContains handle 'w') = true) :
    (lockDims sd handle true d).h = d.w / (sd.width / sd.height) := by
  simp [lockDims, hew]

/-- The text-scaling step never changes the x origin. -/
theorem textDims_fst_x (sd : StartDims) (handle : String) (b : Bool)
    (d : Dims) : (textDims sd handle b d).1.x = d.x := by
  unfold textDims
  split
  · split
    · rfl
    · rfl
  · rfl

/-- The text-scaling step never changes the y origin. -/
theorem textDims_fst_y (sd : StartDims) (handle : String) (b : Bool)
    (d : Dims) : (textDims sd handle b d).1.y = d.y := by
  unfold textDims
  split
  · split
    · rfl
    · rfl
  · rfl

/-- Aspect-lock step, width-driven case: the x origin passes through. -/
theorem lockDims_x_ew (sd : StartDims) (handle : String) (d : Dims)
    (hew : (strContains handle 'e' || strContains handle 'w') = true) :
    (lockDims sd handle true d).x = d.x := by
  simp [lockDims, hew]

/-- Aspect-lock step, width-driven case with `n` in the handle: the y
origin is compensated by the re-derived height. -/
theorem lockDims_y_ew_n (sd : StartDims) (handle : String) (d : Dims)
    (hew : (strContains handle 'e' || strContains handle 'w') = true)
    (hn : strContains handle 'n' = true) :
    (lockDims sd handle true d).y
      = sd.y + (sd.height - d.w / (sd.width / sd.height)) := by
  simp [lockDims, hew, hn]

/-- Handle-edge step with `w` in the handle: the width moves by `-dx`. -/
theorem rawDims_w_of_w (sd : StartDims) (handle : String) (dx dy : ℚ)
    (hwc : strContains handle 'w' = true) :
    (rawDims sd handle dx dy).w = sd.width - dx := by
  simp [rawDims, hwc]

/-- Handle-edge step with `w` in the handle: the x origin moves by `dx`. -/
theorem rawDims_x_of_w (sd : StartDims) (handle : String) (dx dy : ℚ)
    (hwc : strContains handle 'w' = true) :
    (rawDims sd handle dx dy).x = sd.x + dx := by
  simp [rawDims, hwc]

/-- C5 counterexample: the claim fails as stated.  An aspect-locked 20×10
node resized by the `se` corner handle with `dx = -15` drives the width to
5 and the derived height to 2.5; the 10-unit floor turns both into 10, so
the 2:1 start ratio is not preserved. -/
theorem aspect_lock_resize_ratio_counterexample :
    ¬ ((resizeOne ⟨20, 10, 0, 0, 16⟩ "se" (-15) 0
        { id := "n", type := NodeType.rectangle, x := 0, y := 0,
          width := 20, height := 10, aspectRatioLocked := true }).width * 10
      = (resizeOne ⟨20, 10, 0, 0, 16⟩ "se" (-15) 0
        { id := "n", type := NodeType.rectangle, x := 0, y := 0,
          width := 20, height := 10, aspectRatioLocked := true }).height * 20) := by
  norm_num [resizeOne, rawDims, lockDims, textDims,
    show strContains "se" 'e' = true from rfl,
    show strContains "se" 'w' = false from rfl,
    show strContains "se" 's' = true from rfl,
    show strContains "se" 'n' = false from rfl,
    show (NodeType.rectangle == NodeType.text) = false from rfl,
    show (NodeType.rectangle == NodeType.image) = false from rfl]

/-- C5 (amended): for an aspect-locked (or image-kind) node with positive
start dimensions, a 2-letter corner-handle resize preserves the start
aspect ratio `width/height` — the height is recomputed from the driven
width — and compensates the origin so the opposite edge stays fixed: with
`w` in the handle the right edge `x + width` is unchanged, with `n` in the
handle the bottom edge `y + height` is unchanged; all provided the driven
width and the derived height stay at or above the 10-unit floor
(otherwise the floor breaks the ratio, see the counterexample). -/
theorem aspect_lock_resize_ratio (sd : StartDims) (handle : String)
    (dx dy : ℚ) (node : CanvasNode)
    (hlock : node.aspectRatioLocked = true ∨ node.type = NodeType.image)
    (hw : 0 < sd.width) (hh : 0 < sd.height)
    (hcorner : handle = "ne" ∨ handle = "nw" ∨ handle = "se" ∨ handle = "sw")
    (hW : 10 ≤ (rawDims sd handle dx dy).w)
    (hH : 10 ≤ (rawDims sd handle dx dy).w * sd.height / sd.width) :
    (resizeOne sd handle dx dy node).width * sd.height
      = (resizeOne sd handle dx dy node).height * sd.width ∧
    (strContains handle 'w' = true →
      (resizeOne sd handle dx dy node).x + (resizeOne sd handle dx dy node).width
        = sd.x + sd.width) ∧
    (strContains handle 'n' = true →
      (resizeOne sd handle dx dy node).y + (resizeOne sd handle dx dy node).height
        = sd.y + sd.height) := by
  have hwne : sd.width ≠ 0 := ne_of_gt hw
  have hhne : sd.height ≠ 0 := ne_of_gt hh
  have hlocked : (node.aspectRatioLocked || node.type == NodeType.image) = true := by
    rcases hlock with h | h
    · simp [h]
    · simp [h]
  have hew : (strContains handle 'e' || strContains handle 'w') = true := by
    rcases hcorner with rfl | rfl | rfl | rfl <;> rfl
  have hlen : (handle.length == 2) = true := by
    rcases hcorner with rfl | rfl | rfl | rfl <;> rfl
  have hwidth : (resizeOne sd handle dx dy node).width
      = max 10 ((textDims sd handle (node.type == NodeType.text)
          (lockDims sd handle (node.aspectRatioLocked || node.type == NodeType.image)
            (rawDims sd handle dx dy))).1.w) := rfl
  have hheight : (resizeOne sd handle dx dy node).height
      = max 10 ((textDims sd handle (node.type == NodeType.text)
          (lockDims sd handle (node.aspectRatioLocked || node.type == NodeType.image)
            (rawDims sd handle dx dy))).1.h) := rfl
  have hx : (resizeOne sd handle dx dy node).x
      = (textDims sd handle (node.type == NodeType.text)
          (lockDims sd handle (node.aspectRatioLocked || node.type == NodeType.image)
            (rawDims sd handle dx dy))).1.x := rfl
  have hy : (resizeOne sd handle dx dy node).y
      = (textDims sd handle (node.type == NodeType.text)
          (lockDims sd handle (node.aspectRatioLocked || node.type == NodeType.image)
            (rawDims sd handle dx dy))).1.y := rfl
  have hfrac : (rawDims sd handle dx dy).w / (sd.width / sd.height)
      = (rawDims sd handle dx dy).w * sd.height / sd.width := by
    rw [div_div_eq_mul_div]
  have htextfrac : sd.height * ((rawDims sd handle dx dy).w / sd.width)
      = (rawDims sd handle dx dy).w * sd.height / sd.width := by
    field_simp
    ring
  have hwidth' : (resizeOne sd handle dx dy node).width
      = (rawDims sd handle dx dy).w := by
    rw [hwidth, hlocked, textDims_fst_w, lockDims_w_ew sd handle _ hew,
      max_eq_right hW]
  have hheight' : (resizeOne sd handle dx dy node).height
      = (rawDims sd handle dx dy).w * sd.height / sd.width := by
    rw [hheight, hlocked]
    by_cases ht : node.type = NodeType.text
    · have hb : (node.type == NodeType.text) = true := by simp [ht]
      rw [hb, textDims_fst_h_true sd handle _ hlen, lockDims_w_ew sd handle _ hew,
        htextfrac, max_eq_right hH]
    · have hb : (node.type == NodeType.text) = false := by simp [ht]
      rw [hb, textDims_fst_h_false, lockDims_h_ew sd handle _ hew, hfrac,
        max_eq_right hH]
  refine ⟨?_, ?_, ?_⟩
  · rw [hwidth', hheight']
    field_simp
  · intro hwc
    rw [hx, hlocked, textDims_fst_x, lockDims_x_ew sd handle _ hew,
      rawDims_x_of_w sd handle dx dy hwc, hwidth',
      rawDims_w_of_w sd handle dx dy hwc]
    ring
  · intro hnc
    rw [hy, hlocked, textDims_fst_y, lockDims_y_ew_n sd handle _ hew hnc,
      hfrac, hheight']
    ring

/-- Witness for C5 (amended): 200×100 locked rectangle, `nw` handle,
`dx = -100` — the resized node is 300×150 (ratio 2:1 kept) and both the
right edge `x + width = 200` and the bottom edge `y + height = 100` are
unchanged. -/
theorem aspect_lock_resize_ratio_witness :
    (resizeOne ⟨200, 100, 0, 0, 16⟩ "nw" (-100) 0
      { id := "n", type := NodeType.rectangle, x := 0, y := 0,
        width := 200, height := 100, aspectRatioLocked := true }).width * 100
      = (resizeOne ⟨200, 100, 0, 0, 16⟩ "nw" (-100) 0
        { id := "n", type := NodeType.rectangle, x := 0, y := 0,
          width := 200, height := 100, aspectRatioLocked := true }).height * 200 ∧
    (resizeOne ⟨200, 100, 0, 0, 16⟩ "nw" (-100) 0
      { id := "n", type := NodeType.rectangle, x := 0, y := 0,
        width := 200, height := 100, aspectRatioLocked := true }).x
      + (resizeOne ⟨200, 100, 0, 0, 16⟩ "nw" (-100) 0
        { id := "n", type := NodeType.rectangle, x := 0, y := 0,
          width := 200, height := 100, aspectRatioLocked := true }).width
      = 0 + 200 ∧
    (resizeOne ⟨200, 100, 0, 0, 16⟩ "nw" (-100) 0
      { id := "n", type := NodeType.rectangle, x := 0, y := 0,
        width := 200, height := 100, aspectRatioLocked := true }).y
      + (resizeOne ⟨200, 100, 0, 0, 16⟩ "nw" (-100) 0
        { id := "n", type := NodeType.rectangle, x := 0, y := 0,
          width := 200, height := 100, aspectRatioLocked := true }).height
      = 0 + 100 := by
  have h := aspect_lock_resize_ratio ⟨200, 100, 0, 0, 16⟩ "nw" (-100) 0
    { id := "n", type := NodeType.rectangle, x := 0, y := 0,
      width := 200, height := 100, aspectRatioLocked := true }
    (Or.inl rfl) (by norm_num) (by norm_num)
    (Or.inr (Or.inl rfl))
    (by norm_num [rawDims, show strContains "nw" 'e' = false from rfl,
          show strContains "nw" 'w' = true from rfl])
    (by norm_num [rawDims, show strContains "nw" 'e' = false from rfl,
          show strContains "nw" 'w' = true from rfl])
  exact ⟨h.1, h.2.1 rfl, h.2.2 rfl⟩


/-- C6: Pen-path finalization normalization: with at least 2 anchors,
exactly one `path` node is appended, positioned at the min corner of the
raw-anchor bounding box with its (1-floored) size; every anchor is
re-expressed as a fraction of the box dimensions, with handle offsets
divided by the same dimensions (not translated); the new node becomes the
sole selection and the anchor buffer is cleared. -/
theorem finishPenPath_normalizes (id : String) (pts : List PenPoint)
    (nodes : List CanvasNode) (sel : List String) (ap : Option Nat)
    (h2 : 2 ≤ pts.length) :
    (finishPenPath id pts nodes sel ap).nodes.length = nodes.length + 1 ∧
    (finishPenPath id pts nodes sel ap).nodes.take nodes.length = nodes ∧
    (∀ (N : CanvasNode), (finishPenPath id pts nodes sel ap).nodes[nodes.length]? = some N →
      N.type = NodeType.path ∧ N.id = id ∧
      N.x = listMin (pts.map (·.x)) ∧ N.y = listMin (pts.map (·.y)) ∧
      N.width = max 1 (listMax (pts.map (·.x)) - listMin (pts.map (·.x))) ∧
      N.height = max 1 (listMax (pts.map (·.y)) - listMin (pts.map (·.y))) ∧
      ∃ (ps : List PenPoint), N.points = some ps ∧ ps.length = pts.length ∧
        ∀ (k : Nat) (p : PenPoint), pts[k]? = some p →
          ps[k]? = some
            (⟨(p.x - listMin (pts.map (·.x)))
                / max 1 (listMax (pts.map (·.x)) - listMin (pts.map (·.x))),
              (p.y - listMin (pts.map (·.y)))
                / max 1 (listMax (pts.map (·.y)) - listMin (pts.map (·.y))),
              jsTruthyDiv p.lcx
                (max 1 (listMax (pts.map (·.x)) - listMin (pts.map (·.x)))),
              jsTruthyDiv p.lcy
                (max 1 (listMax (pts.map (·.y)) - listMin (pts.map (·.y)))),
              jsTruthyDiv p.rcx
                (max 1 (listMax (pts.map (·.x)) - listMin (pts.map (·.x)))),
              jsTruthyDiv p.rcy
                (max 1 (listMax (pts.map (·.y)) - listMin (pts.map (·.y))))⟩ : PenPoint)) ∧
    (finishPenPath id pts nodes sel ap).selectedNodeIds = [id] ∧
    (finishPenPath id pts nodes sel ap).penPoints = [] := by
  have hnot : ¬ pts.length < 2 := not_lt.mpr h2
  unfold finishPenPath
  rw [if_neg hnot]
  refine ⟨by simp, List.take_left nodes _, ?_, rfl, rfl⟩
  intro N hN
  rw [List.getElem?_concat_length] at hN
  obtain rfl : _ = N := Option.some.inj hN
  refine ⟨rfl, rfl, rfl, rfl, rfl, rfl, ?_⟩
  refine ⟨_, rfl, ?_, ?_⟩
  · exact List.length_map _ _
  · intro k p hk
    rw [List.getElem?_map, hk]
    rfl


/-- C7: Degenerate pen path discarded: with fewer than 2 anchors,
finalization appends no node, changes no node and no selection, and clears
only the anchor buffer; the Enter key handler does not finalize at all in
that case (whatever the active tool). -/
theorem penPath_degenerate_discarded (id : String) (pts : List PenPoint)
    (nodes : List CanvasNode) (sel : List String) (ap : Option Nat)
    (h : pts.length < 2) :
    finishPenPath id pts nodes sel ap = ⟨nodes, sel, [], ap⟩ ∧
    ∀ tool : Tool, handleEnterKey id tool pts nodes sel ap
      = ⟨nodes, sel, pts, ap⟩ := by
  constructor
  · unfold finishPenPath
    rw [if_pos h]
  · intro tool
    have h1 : ¬ pts.length > 1 := by omega
    unfold handleEnterKey
    rw [if_neg]
    simp [h1]

/-- C8: Line/arrow two-point invariant: creation with the line or arrow
tool appends exactly one node at the press point with exactly two points,
both `(0,0)`; every drawing pointer-move on a line/arrow node rewrites the
points to exactly `[(0,0), cursor - nodePosition]`. -/
theorem line_arrow_two_points (id : String) (pos worldPos dstart : Pt)
    (tool : Tool) (node : CanvasNode) (nodes : List CanvasNode)
    (htool : tool = Tool.line ∨ tool = Tool.arrow)
    (hnode : node.type = NodeType.line ∨ node.type = NodeType.arrow) :
    (∃ N : CanvasNode, pointerDownCreateNodes id tool pos nodes = nodes ++ [N] ∧
      N.x = pos.x ∧ N.y = pos.y ∧ N.type = toolNodeType tool ∧
      N.points = some [⟨0, 0, none, none, none, none⟩,
        ⟨0, 0, none, none, none, none⟩]) ∧
    (drawingMoveNode worldPos dstart node).points =
      some [⟨0, 0, none, none, none, none⟩,
        ⟨worldPos.x - node.x, worldPos.y - node.y, none, none, none, none⟩] := by
  constructor
  · rcases htool with rfl | rfl
    · exact ⟨_, rfl, rfl, rfl, rfl, rfl⟩
    · exact ⟨_, rfl, rfl, rfl, rfl, rfl⟩
  · rcases hnode with h | h
    · have hd : (node.type == NodeType.draw) = false := by simp [h]
      have hl : (node.type == NodeType.line) = true := by simp [h]
      simp [drawingMoveNode, hd, hl]
    · have hd : (node.type == NodeType.draw) = false := by simp [h]
      have hl : (node.type == NodeType.line) = false := by simp [h]
      have ha : (node.type == NodeType.arrow) = true := by simp [h]
      simp [drawingMoveNode, hd, hl, ha]


/-- `listMax` of a non-trivial cons. -/
theorem listMax_cons (a : ℚ) (l : List ℚ) (h : l ≠ []) :
    listMax (a :: l) = max a (listMax l) := by
  cases l with
  | nil => exact absurd rfl h
  | cons b t => rfl

/-- `listMax` over an appended element is the binary max. -/
theorem listMax_concat (l : List ℚ) (a : ℚ) (h : l ≠ []) :
    listMax (l ++ [a]) = max (listMax l) a := by
  induction l with
  | nil => exact absurd rfl h
  | cons b t ih =>
    cases t with
    | nil => rfl
    | cons c t2 =>
      rw [List.cons_append, listMax_cons b ((c :: t2) ++ [a]) (by simp),
        listMax_cons b (c :: t2) (by simp), ih (by simp), max_assoc]

/-- `listMin` is a lower bound of the list. -/
theorem listMin_le_of_mem (a : ℚ) (l : List ℚ) (h : a ∈ l) :
    listMin l ≤ a := by
  induction l with
  | nil => simp at h
  | cons b t ih =>
    cases t with
    | nil =>
      simp at h
      simp [listMin, h]
    | cons c t2 =>
      rcases List.mem_cons.mp h with rfl | h2
      · exact min_le_left _ _
      · exact le_trans (min_le_right _ _) (ih h2)

/-- Any common lower bound is below `listMin`. -/
theorem le_listMin (l : List ℚ) (b : ℚ) (hne : l ≠ [])
    (h : ∀ a ∈ l, b ≤ a) : b ≤ listMin l := by
  induction l with
  | nil => exact absurd rfl hne
  | cons c t ih =>
    cases t with
    | nil => exact h c (by simp)
    | cons d t2 =>
      exact le_min (h c (by simp)) (ih (by simp) (fun a ha => h a (List.mem_cons_of_mem c ha)))

/-- Invariant of iterated drawing moves on a `draw` node: position and
kind are fixed, each move appends the cursor's node-local offset, and
width/height remain the running max (`listMax`) of the stored x (resp. y)
coordinates. -/
theorem drawMoves_invariant (dstart : Pt) (ws : List Pt) (n : CanvasNode)
    (ps : List PenPoint) (ht : n.type = NodeType.draw) (hp : n.points = some ps)
    (hne : ps ≠ []) (hw : n.width = listMax (ps.map (·.x)))
    (hh : n.height = listMax (ps.map (·.y))) :
    (drawMoves dstart n ws).type = NodeType.draw ∧
    (drawMoves dstart n ws).x = n.x ∧ (drawMoves dstart n ws).y = n.y ∧
    (drawMoves dstart n ws).points = some (ps ++ ws.map (fun w =>
      (⟨w.x - n.x, w.y - n.y, none, none, none, none⟩ : PenPoint))) ∧
    (drawMoves dstart n ws).width = listMax ((ps ++ ws.map (fun w =>
      (⟨w.x - n.x, w.y - n.y, none, none, none, none⟩ : PenPoint))).map (·.x)) ∧
    (drawMoves dstart n ws).height = listMax ((ps ++ ws.map (fun w =>
      (⟨w.x - n.x, w.y - n.y, none, none, none, none⟩ : PenPoint))).map (·.y)) := by
  induction ws generalizing n ps with
  | nil =>
    refine ⟨ht, rfl, rfl, ?_, ?_, ?_⟩
    · simpa using hp
    · simpa using hw
    · simpa using hh
  | cons w ws ih =>
    have hb : (n.type == NodeType.draw) = true := by simp [ht]
    have hstep : drawingMoveNode w dstart n =
        { n with
          width := max n.width (w.x - n.x),
          height := max n.height (w.y - n.y),
          points := some (ps ++ [⟨w.x - n.x, w.y - n.y, none, none, none, none⟩]) } := by
      unfold drawingMoveNode
      rw [if_pos hb, hp]
      rfl
    have hfold : drawMoves dstart n (w :: ws)
        = drawMoves dstart (drawingMoveNode w dstart n) ws := rfl
    rw [hfold, hstep]
    have hmapne : (ps.map (·.x)) ≠ [] := by
      simpa using hne
    have hmapne' : (ps.map (·.y)) ≠ [] := by
      simpa using hne
    have h1 := ih
      { n with
        width := max n.width (w.x - n.x),
        height := max n.height (w.y - n.y),
        points := some (ps ++ [⟨w.x - n.x, w.y - n.y, none, none, none, none⟩]) }
      (ps ++ [⟨w.x - n.x, w.y - n.y, none, none, none, none⟩])
      ht rfl (by simp)
      (by
        simp only [List.map_append, List.map_cons, List.map_nil]
        rw [listMax_concat _ _ hmapne, hw])
      (by
        simp only [List.map_append, List.map_cons, List.map_nil]
        rw [listMax_concat _ _ hmapne', hh])
    simpa [List.append_assoc] using h1


/-- C9 (amended): a freehand `draw` node starts with one point at the
local origin; every drawing move appends exactly one node-local point and
never shrinks width/height; after any sequence of moves, width and height
equal the running maximum (`listMax`) of the stored points' x and y
coordinates — which equals the bounding box of the stored points only when
no stored coordinate is negative (last conjunct).  The claim's
equality with the bounding box fails for negative node-local coordinates,
see the counterexample. -/
theorem draw_bbox_growth (id : String) (pos dstart : Pt) (ws : List Pt)
    (n0 : CanvasNode) (h0 : pointerDownCreate id Tool.pencil pos = some n0) :
    (∀ (n : CanvasNode) (w : Pt), n.type = NodeType.draw →
      (drawingMoveNode w dstart n).points.getD []
          = n.points.getD [] ++ [⟨w.x - n.x, w.y - n.y, none, none, none, none⟩] ∧
      n.width ≤ (drawingMoveNode w dstart n).width ∧
      n.height ≤ (drawingMoveNode w dstart n).height) ∧
    (drawMoves dstart n0 ws).points = some
      ((⟨0, 0, none, none, none, none⟩ : PenPoint) :: ws.map (fun w =>
        (⟨w.x - pos.x, w.y - pos.y, none, none, none, none⟩ : PenPoint))) ∧
    (drawMoves dstart n0 ws).width
      = listMax ((((⟨0, 0, none, none, none, none⟩ : PenPoint) :: ws.map (fun w =>
          (⟨w.x - pos.x, w.y - pos.y, none, none, none, none⟩ : PenPoint))).map (·.x))) ∧
    (drawMoves dstart n0 ws).height
      = listMax ((((⟨0, 0, none, none, none, none⟩ : PenPoint) :: ws.map (fun w =>
          (⟨w.x - pos.x, w.y - pos.y, none, none, none, none⟩ : PenPoint))).map (·.y))) ∧
    ((∀ q ∈ (((⟨0, 0, none, none, none, none⟩ : PenPoint) :: ws.map (fun w =>
          (⟨w.x - pos.x, w.y - pos.y, none, none, none, none⟩ : PenPoint)))),
        0 ≤ q.x ∧ 0 ≤ q.y) →
      (drawMoves dstart n0 ws).width
          = bboxWidth (((⟨0, 0, none, none, none, none⟩ : PenPoint) :: ws.map (fun w =>
              (⟨w.x - pos.x, w.y - pos.y, none, none, none, none⟩ : PenPoint)))) ∧
      (drawMoves dstart n0 ws).height
          = bboxHeight (((⟨0, 0, none, none, none, none⟩ : PenPoint) :: ws.map (fun w =>
              (⟨w.x - pos.x, w.y - pos.y, none, none, none, none⟩ : PenPoint))))) := by
  have hn0 : n0 = {
      id := id, type := NodeType.draw, x := pos.x, y := pos.y,
      width := 0, height := 0, content := "", color := "#1e293b",
      points := some [⟨0, 0, none, none, none, none⟩] } := by
    have := h0
    unfold pointerDownCreate at this
    simp only [show (Tool.pencil == Tool.text) = false from rfl,
      show (Tool.pencil == Tool.pencil) = true from rfl,
      Bool.false_eq_true, if_false, if_true] at this
    exact (Option.some.inj this).symm
  subst hn0
  have hinv := drawMoves_invariant dstart ws
    {
      id := id, type := NodeType.draw, x := pos.x, y := pos.y,
      width := 0, height := 0, content := "", color := "#1e293b",
      points := some [⟨0, 0, none, none, none, none⟩] }
    [⟨0, 0, none, none, none, none⟩]
    rfl rfl (by simp) (by simp [listMax]) (by simp [listMax])
  obtain ⟨-, -, -, hpts, hwid, hhei⟩ := hinv
  refine ⟨?_, ?_, ?_, ?_, ?_⟩
  · intro n w ht
    have hb : (n.type == NodeType.draw) = true := by simp [ht]
    refine ⟨?_, ?_, ?_⟩
    · unfold drawingMoveNode
      rw [if_pos hb]
      simp
    · unfold drawingMoveNode
      rw [if_pos hb]
      exact le_max_left _ _
    · unfold drawingMoveNode
      rw [if_pos hb]
      exact le_max_left _ _
  · simpa using hpts
  · simpa using hwid
  · simpa using hhei
  · intro hq
    constructor
    · rw [bboxWidth]
      have hmem : (0 : ℚ) ∈ (((⟨0, 0, none, none, none, none⟩ : PenPoint) :: ws.map (fun w =>
          (⟨w.x - pos.x, w.y - pos.y, none, none, none, none⟩ : PenPoint))).map (·.x)) := by
        simp
      have hlo : listMin (((⟨0, 0, none, none, none, none⟩ : PenPoint) :: ws.map (fun w =>
          (⟨w.x - pos.x, w.y - pos.y, none, none, none, none⟩ : PenPoint))).map (·.x)) = 0 := by
        refine le_antisymm (listMin_le_of_mem 0 _ hmem) ?_
        refine le_listMin _ _ (by simp) ?_
        intro a ha
        rw [List.mem_map] at ha
        obtain ⟨q, hq', rfl⟩ := ha
        exact (hq q hq').1
      rw [hlo, sub_zero]
      simpa using hwid
    · rw [bboxHeight]
      have hmem : (0 : ℚ) ∈ (((⟨0, 0, none, none, none, none⟩ : PenPoint) :: ws.map (fun w =>
          (⟨w.x - pos.x, w.y - pos.y, none, none, none, none⟩ : PenPoint))).map (·.y)) := by
        simp
      have hlo : listMin (((⟨0, 0, none, none, none, none⟩ : PenPoint) :: ws.map (fun w =>
          (⟨w.x - pos.x, w.y - pos.y, none, none, none, none⟩ : PenPoint))).map (·.y)) = 0 := by
        refine le_antisymm (listMin_le_of_mem 0 _ hmem) ?_
        refine le_listMin _ _ (by simp) ?_
        intro a ha
        rw [List.mem_map] at ha
        obtain ⟨q, hq', rfl⟩ := ha
        exact (hq q hq').2
      rw [hlo, sub_zero]
      simpa using hhei


/-- C9 counterexample: pressing the pencil at world `(10,10)` and moving
to world `(5,5)` appends the node-local point `(-5,-5)`; the node's width
stays `0` while the bounding box of the stored points has width `5`, so
width does not equal the bounding box of the stored points. -/
theorem draw_bbox_counterexample :
    (pointerDownCreate "d" Tool.pencil ⟨10, 10⟩).map (fun n0 =>
      ((drawMoves ⟨0, 0⟩ n0 [⟨5, 5⟩]).width,
        bboxWidth ((drawMoves ⟨0, 0⟩ n0 [⟨5, 5⟩]).points.getD [])))
      = some (0, 5) ∧ (0 : ℚ) ≠ 5 := by
  constructor
  · norm_num [pointerDownCreate, drawMoves, drawingMoveNode, bboxWidth,
      listMax, listMin,
      show (Tool.pencil == Tool.text) = false from rfl,
      show (Tool.pencil == Tool.pencil) = true from rfl,
      show (NodeType.draw == NodeType.draw) = true from rfl]
  · norm_num

/-- C10: Resize frame effect: a resize pointer-move leaves untargeted
nodes untouched and, on the targeted node of any kind, changes only
`x, y, width, height, fontSize`; `fontSize` is always written as the
rounded computed font size, which is `16` when the node had no `fontSize`
at resize start and is not a text node. -/
theorem resize_frame_effect (rs : ResizeState) (p : Pt)
    (nodes : List CanvasNode) (sd : StartDims) (handle : String)
    (dx dy : ℚ) (node : CanvasNode) (sp : Pt) (i : ℕ) :
    (nodes[i]? = some node →
      (applyResize rs p nodes)[i]? = some (if node.id ≠ rs.nodeId then node
        else resizeOne rs.startDims rs.handle (p.x - rs.startPoint.x)
          (p.y - rs.startPoint.y) node)) ∧
    ((resizeOne sd handle dx dy node).id = node.id ∧
      (resizeOne sd handle dx dy node).type = node.type ∧
      (resizeOne sd handle dx dy node).content = node.content ∧
      (resizeOne sd handle dx dy node).color = node.color ∧
      (resizeOne sd handle dx dy node).fontFamily = node.fontFamily ∧
      (resizeOne sd handle dx dy node).fillColor = node.fillColor ∧
      (resizeOne sd handle dx dy node).strokeColor = node.strokeColor ∧
      (resizeOne sd handle dx dy node).strokeWidth = node.strokeWidth ∧
      (resizeOne sd handle dx dy node).aspectRatioLocked = node.aspectRatioLocked ∧
      (resizeOne sd handle dx dy node).points = node.points ∧
      (resizeOne sd handle dx dy node).src = node.src) ∧
    ((resizeOne sd handle dx dy node).fontSize
      = some ((round (textDims sd handle (node.type == NodeType.text)
          (lockDims sd handle (node.aspectRatioLocked || node.type == NodeType.image)
            (rawDims sd handle dx dy))).2 : ℤ) : ℚ)) ∧
    (node.fontSize = none → node.type ≠ NodeType.text →
      (resizeOne (handleResizeStart handle sp node).startDims handle dx dy
          node).fontSize = some 16) := by
  refine ⟨?_, ⟨rfl, rfl, rfl, rfl, rfl, rfl, rfl, rfl, rfl, rfl, rfl⟩, rfl, ?_⟩
  · intro h
    unfold applyResize
    rw [List.getElem?_map, h]
    rfl
  · intro hfs ht
    have hb : (node.type == NodeType.text) = false := by simp [ht]
    have hsd : (handleResizeStart handle sp node).startDims.fontSize = 16 := by
      simp [handleResizeStart, jsOrNum, hfs]
    have hfont : (resizeOne (handleResizeStart handle sp node).startDims handle dx dy
        node).fontSize
        = some ((round (textDims (handleResizeStart handle sp node).startDims handle
            (node.type == NodeType.text)
            (lockDims (handleResizeStart handle sp node).startDims handle
              (node.aspectRatioLocked || node.type == NodeType.image)
              (rawDims (handleResizeStart handle sp node).startDims handle dx dy))).2
          : ℤ) : ℚ) := rfl
    rw [hfont, hb]
    unfold textDims
    simp only [Bool.false_eq_true, if_false, hsd]
    norm_num [round_eq]


/-- Witness for C6: anchors `[(0,0),(100,0),(100,100)]` produce a
100×100 `path` node at `(0,0)` with normalized points
`[(0,0),(1,0),(1,1)]`, the sole selection, and an empty buffer. -/
theorem finishPenPath_normalizes_witness :
    (finishPenPath "p1"
      [⟨0, 0, none, none, none, none⟩, ⟨100, 0, none, none, none, none⟩,
        ⟨100, 100, none, none, none, none⟩] [] [] none).nodes.length = 0 + 1 ∧
    (finishPenPath "p1"
      [⟨0, 0, none, none, none, none⟩, ⟨100, 0, none, none, none, none⟩,
        ⟨100, 100, none, none, none, none⟩] [] [] none).selectedNodeIds = ["p1"] ∧
    (finishPenPath "p1"
      [⟨0, 0, none, none, none, none⟩, ⟨100, 0, none, none, none, none⟩,
        ⟨100, 100, none, none, none, none⟩] [] [] none).penPoints = [] ∧
    (finishPenPath "p1"
      [⟨0, 0, none, none, none, none⟩, ⟨100, 0, none, none, none, none⟩,
        ⟨100, 100, none, none, none, none⟩] [] [] none).nodes =
      [{
        id := "p1", type := NodeType.path, x := 0, y := 0,
        width := 100, height := 100, content := "", color := "#ffffff",
        fillColor := some "#dbeafe", strokeColor := some "#3b82f6",
        strokeWidth := some 2,
        points := some [⟨0, 0, none, none, none, none⟩,
          ⟨1, 0, none, none, none, none⟩, ⟨1, 1, none, none, none, none⟩] }] := by
  have h := finishPenPath_normalizes "p1"
    [⟨0, 0, none, none, none, none⟩, ⟨100, 0, none, none, none, none⟩,
      ⟨100, 100, none, none, none, none⟩] [] [] none (by norm_num)
  refine ⟨h.1, h.2.2.2.1, h.2.2.2.2, ?_⟩
  norm_num [finishPenPath, listMin, listMax, jsTruthyDiv]

/-- Witness for C7: a single-anchor buffer is discarded without touching
nodes or selection. -/
theorem penPath_degenerate_discarded_witness :
    ([(⟨5, 5, none, none, none, none⟩ : PenPoint)].length < 2) ∧
    finishPenPath "q" [⟨5, 5, none, none, none, none⟩] [] ["s"] (some 0)
      = ⟨[], ["s"], [], some 0⟩ := by
  have h := penPath_degenerate_discarded "q" [⟨5, 5, none, none, none, none⟩]
    [] ["s"] (some 0) (by norm_num)
  exact ⟨by norm_num, h.1⟩

/-- Witness for C8: line tool pressed at world `(10,10)` then dragged to
`(110,60)` yields one `line` node at `(10,10)` with points
`[(0,0),(100,50)]`. -/
theorem line_arrow_two_points_witness :
    drawingMove ⟨110, 60⟩ ⟨10, 10⟩ "L"
        (pointerDownCreateNodes "L" Tool.line ⟨10, 10⟩ []) =
      [{ id := "L", type := NodeType.line, x := 10, y := 10, width := 0,
          height := 0, content := "", color := "#64748b",
          points := some [⟨0, 0, none, none, none, none⟩,
            ⟨100, 50, none, none, none, none⟩] }] ∧
    (drawingMoveNode ⟨110, 60⟩ ⟨10, 10⟩
        { id := "L", type := NodeType.line, x := 10, y := 10, width := 0,
          height := 0, content := "", color := "#64748b",
          points := some [⟨0, 0, none, none, none, none⟩,
            ⟨0, 0, none, none, none, none⟩] }).points =
      some [⟨0, 0, none, none, none, none⟩, ⟨100, 50, none, none, none, none⟩] := by
  constructor
  · norm_num [drawingMove, drawingMoveNode, pointerDownCreateNodes,
      pointerDownCreate, toolNodeType,
      show (Tool.line == Tool.text) = false from rfl,
      show (Tool.line == Tool.pencil) = false from rfl,
      show (Tool.line == Tool.line) = true from rfl,
      show (NodeType.line == NodeType.draw) = false from rfl,
      show (NodeType.line == NodeType.line) = true from rfl]
    decide
  · have h := (line_arrow_two_points "L" ⟨10, 10⟩ ⟨110, 60⟩ ⟨10, 10⟩ Tool.line
      { id := "L", type := NodeType.line, x := 10, y := 10, width := 0,
        height := 0, content := "", color := "#64748b",
        points := some [⟨0, 0, none, none, none, none⟩,
          ⟨0, 0, none, none, none, none⟩] } []
      (Or.inl rfl) (Or.inl rfl)).2
    norm_num at h
    exact h

/-- Witness for C9 (amended): a pencil node at `(10,10)` after one move
to world `(15,30)` stores points `[(0,0),(5,20)]` with width 5 and
height 20. -/
theorem draw_bbox_growth_witness :
    (drawMoves ⟨0, 0⟩
      { id := "d", type := NodeType.draw, x := 10, y := 10, width := 0,
        height := 0, content := "", color := "#1e293b",
        points := some [⟨0, 0, none, none, none, none⟩] } [⟨15, 30⟩]).points
      = some [⟨0, 0, none, none, none, none⟩, ⟨5, 20, none, none, none, none⟩] ∧
    (drawMoves ⟨0, 0⟩
      { id := "d", type := NodeType.draw, x := 10, y := 10, width := 0,
        height := 0, content := "", color := "#1e293b",
        points := some [⟨0, 0, none, none, none, none⟩] } [⟨15, 30⟩]).width = 5 ∧
    (drawMoves ⟨0, 0⟩
      { id := "d", type := NodeType.draw, x := 10, y := 10, width := 0,
        height := 0, content := "", color := "#1e293b",
        points := some [⟨0, 0, none, none, none, none⟩] } [⟨15, 30⟩]).height = 20 := by
  have h := draw_bbox_growth "d" ⟨10, 10⟩ ⟨0, 0⟩ [⟨15, 30⟩]
    { id := "d", type := NodeType.draw, x := 10, y := 10, width := 0,
      height := 0, content := "", color := "#1e293b",
      points := some [⟨0, 0, none, none, none, none⟩] }
    (by norm_num [pointerDownCreate,
      show (Tool.pencil == Tool.text) = false from rfl,
      show (Tool.pencil == Tool.pencil) = true from rfl])
  obtain ⟨-, hpts, hw, hh, -⟩ := h
  norm_num [listMax] at hpts hw hh
  exact ⟨hpts, hw, hh⟩

/-- Witness for C10: resizing a `line` node (no `fontSize`) writes
`fontSize = 16` onto it and leaves its points untouched. -/
theorem resize_frame_effect_witness :
    ((resizeOne (handleResizeStart "se" ⟨0, 0⟩
        { id := "l", type := NodeType.line, x := 1, y := 2, width := 30,
          height := 40, content := "", color := "#64748b",
          points := some [⟨0, 0, none, none, none, none⟩,
            ⟨3, 4, none, none, none, none⟩] }).startDims "se" 5 5
        { id := "l", type := NodeType.line, x := 1, y := 2, width := 30,
          height := 40, content := "", color := "#64748b",
          points := some [⟨0, 0, none, none, none, none⟩,
            ⟨3, 4, none, none, none, none⟩] }).fontSize = some 16) ∧
    ((resizeOne (handleResizeStart "se" ⟨0, 0⟩
        { id := "l", type := NodeType.line, x := 1, y := 2, width := 30,
          height := 40, content := "", color := "#64748b",
          points := some [⟨0, 0, none, none, none, none⟩,
            ⟨3, 4, none, none, none, none⟩] }).startDims "se" 5 5
        { id := "l", type := NodeType.line, x := 1, y := 2, width := 30,
          height := 40, content := "", color := "#64748b",
          points := some [⟨0, 0, none, none, none, none⟩,
            ⟨3, 4, none, none, none, none⟩] }).points =
      some [⟨0, 0, none, none, none, none⟩, ⟨3, 4, none, none, none, none⟩]) := by
  have h := resize_frame_effect
    (handleResizeStart "se" ⟨0, 0⟩
      { id := "l", type := NodeType.line, x := 1, y := 2, width := 30,
        height := 40, content := "", color := "#64748b",
        points := some [⟨0, 0, none, none, none, none⟩,
          ⟨3, 4, none, none, none, none⟩] }) ⟨5, 5⟩ []
    (handleResizeStart "se" ⟨0, 0⟩
      { id := "l", type := NodeType.line, x := 1, y := 2, width := 30,
        height := 40, content := "", color := "#64748b",
        points := some [⟨0, 0, none, none, none, none⟩,
          ⟨3, 4, none, none, none, none⟩] }).startDims "se" 5 5
    { id := "l", type := NodeType.line, x := 1, y := 2, width := 30,
      height := 40, content := "", color := "#64748b",
      points := some [⟨0, 0, none, none, none, none⟩,
        ⟨3, 4, none, none, none, none⟩] } ⟨0, 0⟩ 0
  refine ⟨h.2.2.2 rfl (by simp), ?_⟩
  exact h.2.1.2.2.2.2.2.2.2.2.2.1


end Whiteboard
